import Mathlib

/-!
Shallow embedding of the voting and reputation core of the Oddo-hacks Q&A
platform (Express + Mongoose backend), and proofs about it.

The embedded code:
* `questionSchema.methods.addUpvote` / `addDownvote` and the `pre('save')`
  vote-count hook (src/unnamed/part_000, the Question model) — textually
  identical to `answerSchema.methods.addUpvote` / `addDownvote` and its
  `pre('save')` hook (src/server/models/Answer.js), so both are embedded
  once as operations on a `VoteLedger`;
* the vote route `POST /api/questions/:id/vote` (src/server/routes/questions.js);
* the vote route `POST /api/answers/:id/vote` (src/server/routes/answers.js);
* the accept route `POST /api/answers/:id/accept` (src/server/routes/answers.js);
* `answerSchema.methods.accept` (src/server/models/Answer.js).

Mongo ObjectIds are abstracted as naturals; `Date` timestamps as naturals.
Fields of the schemas that no embedded operation reads or writes (content,
tags, comments, views, edit history, …) are omitted.  External collaborators
(notification delivery, HTTP details) are out of scope per the spec.
-/

namespace OddoHacks

/-- User identifiers (Mongo ObjectIds), abstracted as naturals. -/
abbrev UserId := Nat

/-- Answer identifiers. -/
abbrev AnswerId := Nat

/-- Question identifiers. -/
abbrev QuestionId := Nat

/-- One element of the `upvotes` / `downvotes` arrays of the question and
answer schemas: a subdocument `{ user, createdAt }`.  `createdAt` defaults to
`Date.now` at push time; it is carried here (as a natural) because the stored
arrays carry it, though no vote operation reads it. -/
structure VoteEntry where
  user : UserId
  createdAt : Nat
  deriving DecidableEq, Repr

/-- The vote-relevant fields shared verbatim by `questionSchema`
(src/unnamed/part_000) and `answerSchema` (src/server/models/Answer.js):
the cached `votes` counter and the `upvotes` / `downvotes` arrays. -/
structure VoteLedger where
  votes : Int
  upvotes : List VoteEntry
  downvotes : List VoteEntry
  deriving DecidableEq, Repr

/-- Schema defaults: `votes: 0`, empty `upvotes` / `downvotes` arrays
(the state of a freshly created question or answer). -/
def newVoteLedger : VoteLedger :=
  { votes := 0, upvotes := [], downvotes := [] }

/-- The `pre('save')` middleware of both schemas:
`this.votes = (this.upvotes ? this.upvotes.length : 0) - (this.downvotes ? this.downvotes.length : 0)`.
The arrays are always present here, so the null-guards are vacuous. -/
def preSave (c : VoteLedger) : VoteLedger :=
  { c with votes := (c.upvotes.length : Int) - (c.downvotes.length : Int) }

/-- Method `addUpvote(userId)` of both schemas:
remove any existing downvote by `userId`; if `userId` already upvoted,
remove the upvote (toggle off), else push `{ user: userId }` (with
`createdAt` defaulting to now); set `votes = upvotes.length - downvotes.length`
and save.  The `pre('save')` hook recomputes the same value, embedded here as
the final `preSave`. -/
def addUpvote (c : VoteLedger) (userId : UserId) (now : Nat) : VoteLedger :=
  let downvotes := c.downvotes.filter (fun vote => vote.user != userId)
  let upvotes :=
    match c.upvotes.find? (fun vote => vote.user == userId) with
    | some _ => c.upvotes.filter (fun vote => vote.user != userId)
    | none => c.upvotes ++ [{ user := userId, createdAt := now }]
  preSave { c with upvotes := upvotes, downvotes := downvotes }

/-- Method `addDownvote(userId)` of both schemas: the mirror of `addUpvote` with
`upvotes` and `downvotes` swapped. -/
def addDownvote (c : VoteLedger) (userId : UserId) (now : Nat) : VoteLedger :=
  let upvotes := c.upvotes.filter (fun vote => vote.user != userId)
  let downvotes :=
    match c.downvotes.find? (fun vote => vote.user == userId) with
    | some _ => c.downvotes.filter (fun vote => vote.user != userId)
    | none => c.downvotes ++ [{ user := userId, createdAt := now }]
  preSave { c with upvotes := upvotes, downvotes := downvotes }

/-- One vote-method call on a content item, with the timestamp the pushed
entry would receive. -/
inductive VoteOp where
  | up (user : UserId) (now : Nat)
  | down (user : UserId) (now : Nat)
  deriving DecidableEq, Repr

/-- Apply one vote-method call. -/
def applyVoteOp (c : VoteLedger) : VoteOp → VoteLedger
  | .up u t => addUpvote c u t
  | .down u t => addDownvote c u t

/-- Apply a sequence of vote-method calls in order. -/
def runVoteOps (c : VoteLedger) (ops : List VoteOp) : VoteLedger :=
  ops.foldl applyVoteOp c

/-- The users currently holding an upvote (the spec's `upvoters` set). -/
def upUsers (c : VoteLedger) : List UserId :=
  c.upvotes.map VoteEntry.user

/-- The users currently holding a downvote (the spec's `downvoters` set). -/
def downUsers (c : VoteLedger) : List UserId :=
  c.downvotes.map VoteEntry.user

/-- Invariant I1 of the spec: a user identifier appears in at most one of
`upvoters` / `downvoters`. -/
def MutualExclusion (c : VoteLedger) : Prop :=
  ∀ u : UserId, ¬(u ∈ upUsers c ∧ u ∈ downUsers c)

/-- Invariant I2 of the spec: the cached tally equals
`|upvoters| - |downvoters|`. -/
def TallyConsistent (c : VoteLedger) : Prop :=
  c.votes = (c.upvotes.length : Int) - (c.downvotes.length : Int)

instance (c : VoteLedger) : Decidable (TallyConsistent c) := by
  unfold TallyConsistent
  infer_instance

section VoteLedgerLemmas

lemma mem_map_user_filter_ne {l : List VoteEntry} {u v : UserId} :
    v ∈ (l.filter (fun vote => vote.user != u)).map VoteEntry.user ↔
      v ∈ l.map VoteEntry.user ∧ v ≠ u := by
  simp only [List.mem_map, List.mem_filter, bne_iff_ne, ne_eq]
  constructor
  · rintro ⟨e, ⟨he, hne⟩, rfl⟩
    exact ⟨⟨e, he, rfl⟩, hne⟩
  · rintro ⟨⟨e, he, rfl⟩, hne⟩
    exact ⟨e, ⟨he, hne⟩, rfl⟩

lemma upUsers_addUpvote_subset {c : VoteLedger} {u : UserId} {t : Nat} {v : UserId}
    (hv : v ∈ upUsers (addUpvote c u t)) : v ∈ upUsers c ∨ v = u := by
  unfold addUpvote preSave upUsers at hv
  rcases h : c.upvotes.find? (fun vote => vote.user == u) with _ | e
  · simp only [h] at hv
    simp only [List.map_append, List.mem_append, List.map_cons, List.map_nil,
      List.mem_singleton] at hv
    rcases hv with hv | hv
    · exact Or.inl hv
    · exact Or.inr hv
  · simp only [h] at hv
    exact Or.inl (mem_map_user_filter_ne.mp hv).1

lemma downUsers_addUpvote {c : VoteLedger} {u : UserId} {t : Nat} {v : UserId}
    (hv : v ∈ downUsers (addUpvote c u t)) : v ∈ downUsers c ∧ v ≠ u := by
  unfold addUpvote preSave downUsers at hv
  rcases h : c.upvotes.find? (fun vote => vote.user == u) with _ | e <;>
    · simp only [h] at hv
      exact mem_map_user_filter_ne.mp hv

lemma downUsers_addDownvote_subset {c : VoteLedger} {u : UserId} {t : Nat} {v : UserId}
    (hv : v ∈ downUsers (addDownvote c u t)) : v ∈ downUsers c ∨ v = u := by
  unfold addDownvote preSave downUsers at hv
  rcases h : c.downvotes.find? (fun vote => vote.user == u) with _ | e
  · simp only [h] at hv
    simp only [List.map_append, List.mem_append, List.map_cons, List.map_nil,
      List.mem_singleton] at hv
    rcases hv with hv | hv
    · exact Or.inl hv
    · exact Or.inr hv
  · simp only [h] at hv
    exact Or.inl (mem_map_user_filter_ne.mp hv).1

lemma upUsers_addDownvote {c : VoteLedger} {u : UserId} {t : Nat} {v : UserId}
    (hv : v ∈ upUsers (addDownvote c u t)) : v ∈ upUsers c ∧ v ≠ u := by
  unfold addDownvote preSave upUsers at hv
  rcases h : c.downvotes.find? (fun vote => vote.user == u) with _ | e <;>
    · simp only [h] at hv
      exact mem_map_user_filter_ne.mp hv

lemma mutualExclusion_addUpvote {c : VoteLedger} (hc : MutualExclusion c)
    (u : UserId) (t : Nat) : MutualExclusion (addUpvote c u t) := by
  intro v ⟨hup, hdown⟩
  obtain ⟨hd, hne⟩ := downUsers_addUpvote hdown
  rcases upUsers_addUpvote_subset hup with hu | rfl
  · exact hc v ⟨hu, hd⟩
  · exact hne rfl

lemma mutualExclusion_addDownvote {c : VoteLedger} (hc : MutualExclusion c)
    (u : UserId) (t : Nat) : MutualExclusion (addDownvote c u t) := by
  intro v ⟨hup, hdown⟩
  obtain ⟨hu, hne⟩ := upUsers_addDownvote hup
  rcases downUsers_addDownvote_subset hdown with hd | rfl
  · exact hc v ⟨hu, hd⟩
  · exact hne rfl

lemma mutualExclusion_runVoteOps {c : VoteLedger} (hc : MutualExclusion c)
    (ops : List VoteOp) : MutualExclusion (runVoteOps c ops) := by
  induction ops generalizing c with
  | nil => exact hc
  | cons op ops ih =>
    cases op with
    | up u t => exact ih (mutualExclusion_addUpvote hc u t)
    | down u t => exact ih (mutualExclusion_addDownvote hc u t)

lemma mutualExclusion_new : MutualExclusion newVoteLedger := by
  intro u ⟨hu, _⟩
  simp [newVoteLedger, upUsers] at hu

end VoteLedgerLemmas

/-- Claim C1. For every sequence of `addUpvote` / `addDownvote` calls applied to
a freshly created content item (question or answer — the methods are
identical), each user identifier appears in at most one of the upvoters and
downvoters sets after every operation: Invariant I1 holds in every reachable
state, since every such state is `runVoteOps newVoteLedger ops` for the
sequence `ops` of calls performed so far. -/
theorem C1_vote_mutual_exclusion (ops : List VoteOp) :
    MutualExclusion (runVoteOps newVoteLedger ops) :=
  mutualExclusion_runVoteOps mutualExclusion_new ops

/-- Claim C2. After every mutation through `addUpvote` or `addDownvote` (each of
which ends in a save, whose `pre('save')` hook recomputes the counter), the
cached `votes` field equals the number of upvoters minus the number of
downvoters: Invariant I2 holds unconditionally of the resulting state. -/
theorem C2_tally_consistent (c : VoteLedger) (u : UserId) (t : Nat) :
    TallyConsistent (addUpvote c u t) ∧ TallyConsistent (addDownvote c u t) := by
  constructor
  · unfold addUpvote preSave TallyConsistent
    rcases h : c.upvotes.find? (fun vote => vote.user == u) with _ | e <;> simp [h]
  · unfold addDownvote preSave TallyConsistent
    rcases h : c.downvotes.find? (fun vote => vote.user == u) with _ | e <;> simp [h]

section ToggleLemmas

lemma filter_user_ne_of_not_mem {l : List VoteEntry} {u : UserId}
    (h : u ∉ l.map VoteEntry.user) : l.filter (fun vote => vote.user != u) = l := by
  apply List.filter_eq_self.mpr
  intro e he
  simp only [bne_iff_ne, ne_eq]
  exact fun heq => h (List.mem_map.mpr ⟨e, he, heq⟩)

lemma find?_user_eq_none_of_not_mem {l : List VoteEntry} {u : UserId}
    (h : u ∉ l.map VoteEntry.user) : l.find? (fun vote => vote.user == u) = none := by
  apply List.find?_eq_none.mpr
  intro e he hbeq
  exact h (List.mem_map.mpr ⟨e, he, by simpa using hbeq⟩)

lemma length_filter_user_ne {l : List VoteEntry} {u : UserId}
    (hnd : (l.map VoteEntry.user).Nodup) (hu : u ∈ l.map VoteEntry.user) :
    l.length = (l.filter (fun vote => vote.user != u)).length + 1 := by
  induction l with
  | nil => simp at hu
  | cons e tl ih =>
    simp only [List.map_cons, List.nodup_cons] at hnd
    obtain ⟨hnotin, hndtl⟩ := hnd
    by_cases heq : e.user = u
    · subst heq
      rw [List.filter_cons_of_neg (by simp)]
      rw [filter_user_ne_of_not_mem hnotin]
      simp
    · have hu2 : u = e.user ∨ ∃ a ∈ tl, a.user = u := by simpa using hu
      have hu' : u ∈ tl.map VoteEntry.user := by
        rcases hu2 with h | ⟨a, ha, hau⟩
        · exact absurd h.symm heq
        · exact List.mem_map.mpr ⟨a, ha, hau⟩
      rw [List.filter_cons_of_pos (by simpa [bne_iff_ne] using heq)]
      have := ih hndtl hu'
      simp only [List.length_cons]
      omega

/-- Case of `addUpvote` when the user holds no vote at all: the downvote filter is a
no-op and the upvote is appended. -/
lemma addUpvote_eq_of_fresh {c : VoteLedger} {u : UserId} (t : Nat)
    (hup : u ∉ upUsers c) (hdown : u ∉ downUsers c) :
    addUpvote c u t =
      preSave { c with upvotes := c.upvotes ++ [{ user := u, createdAt := t }] } := by
  simp only [addUpvote]
  rw [find?_user_eq_none_of_not_mem hup, filter_user_ne_of_not_mem hdown]

/-- Case of `addUpvote` when the user already holds an upvote and no downvote:
pure toggle-off. -/
lemma addUpvote_eq_of_up {c : VoteLedger} {u : UserId} (t : Nat)
    (hup : u ∈ upUsers c) (hdown : u ∉ downUsers c) :
    addUpvote c u t =
      preSave { c with upvotes := c.upvotes.filter (fun vote => vote.user != u) } := by
  simp only [addUpvote]
  rw [filter_user_ne_of_not_mem hdown]
  rcases hf : c.upvotes.find? (fun vote => vote.user == u) with _ | e
  · exfalso
    obtain ⟨e, he, heq⟩ := List.mem_map.mp hup
    exact List.find?_eq_none.mp hf e he (by simpa using heq)
  · rw [hf]

/-- Case of `addDownvote` when the user holds no downvote: the upvote filter runs and
the downvote is appended. -/
lemma addDownvote_eq_of_not_down {c : VoteLedger} {u : UserId} (t : Nat)
    (hdown : u ∉ downUsers c) :
    addDownvote c u t =
      preSave { c with upvotes := c.upvotes.filter (fun vote => vote.user != u),
                       downvotes := c.downvotes ++ [{ user := u, createdAt := t }] } := by
  simp only [addDownvote]
  rw [find?_user_eq_none_of_not_mem hdown]

end ToggleLemmas

/-- Claim C4, amended. For a user `u` holding no active downvote on a content
item whose state satisfies the data-model invariants (tally consistent, no
duplicate upvoter entries), calling `addUpvote(u)` twice in succession returns
the upvoters and downvoters sets (as sets of user identifiers — the spec
declares insertion order irrelevant) and the cached tally to their values
before the first call.  The claim's `u ≠ author` premise is dropped: the
method never reads the author, so the property holds for every `u`, which
implies the claim's restriction.  The added `u ∉ downvoters` hypothesis is
forced by the counterexample: on a downvoter, the first call silently removes
the downvote and the second call merely removes the upvote, leaving the
downvote gone and the tally one higher. -/
theorem C4_double_upvote_restores (c : VoteLedger) (u : UserId) (t1 t2 : Nat)
    (hI2 : TallyConsistent c) (hnd : (upUsers c).Nodup) (hdown : u ∉ downUsers c) :
    (∀ v, v ∈ upUsers (addUpvote (addUpvote c u t1) u t2) ↔ v ∈ upUsers c) ∧
    (∀ v, v ∈ downUsers (addUpvote (addUpvote c u t1) u t2) ↔ v ∈ downUsers c) ∧
    (addUpvote (addUpvote c u t1) u t2).votes = c.votes := by
  by_cases hup : u ∈ upUsers c
  · rw [addUpvote_eq_of_up t1 hup hdown]
    have hup1 : u ∉ upUsers (preSave { c with
        upvotes := c.upvotes.filter (fun vote => vote.user != u) }) := by
      intro h
      exact (mem_map_user_filter_ne.mp h).2 rfl
    have hdown1 : u ∉ downUsers (preSave { c with
        upvotes := c.upvotes.filter (fun vote => vote.user != u) }) := hdown
    rw [addUpvote_eq_of_fresh t2 hup1 hdown1]
    refine ⟨?_, ?_, ?_⟩
    · intro v
      simp only [preSave, upUsers, List.map_append, List.mem_append, List.map_cons,
        List.map_nil, List.mem_singleton]
      constructor
      · rintro (hv | rfl)
        · exact (mem_map_user_filter_ne.mp hv).1
        · exact hup
      · intro hv
        by_cases hvu : v = u
        · exact Or.inr hvu
        · exact Or.inl (mem_map_user_filter_ne.mpr ⟨hv, hvu⟩)
    · intro v
      exact Iff.rfl
    · have hlen := length_filter_user_ne hnd hup
      unfold TallyConsistent at hI2
      simp only [preSave, List.length_append, List.length_cons, List.length_nil]
      push_cast
      omega
  · rw [addUpvote_eq_of_fresh t1 hup hdown]
    have hup1 : u ∈ upUsers (preSave { c with
        upvotes := c.upvotes ++ [{ user := u, createdAt := t1 }] }) := by
      simp [preSave, upUsers]
    have hdown1 : u ∉ downUsers (preSave { c with
        upvotes := c.upvotes ++ [{ user := u, createdAt := t1 }] }) := hdown
    rw [addUpvote_eq_of_up t2 hup1 hdown1]
    have hfu : (c.upvotes ++ [({ user := u, createdAt := t1 } : VoteEntry)]).filter
        (fun vote => vote.user != u) = c.upvotes := by
      rw [List.filter_append, filter_user_ne_of_not_mem hup]
      simp
    refine ⟨?_, ?_, ?_⟩
    · intro v
      simp only [preSave, upUsers, hfu]
    · intro v
      exact Iff.rfl
    · unfold TallyConsistent at hI2
      simp only [preSave, hfu]
      omega

/-- Witness for C4: user 2 has upvoted a fresh item; user 1 upvotes twice,
restoring membership and tally. -/
theorem C4_double_upvote_restores_witness :
    TallyConsistent (addUpvote newVoteLedger 2 0) ∧
    (upUsers (addUpvote newVoteLedger 2 0)).Nodup ∧
    1 ∉ downUsers (addUpvote newVoteLedger 2 0) ∧
    (1 ∈ upUsers (addUpvote (addUpvote (addUpvote newVoteLedger 2 0) 1 1) 1 2) ↔
      1 ∈ upUsers (addUpvote newVoteLedger 2 0)) ∧
    (addUpvote (addUpvote (addUpvote newVoteLedger 2 0) 1 1) 1 2).votes =
      (addUpvote newVoteLedger 2 0).votes :=
  ⟨by decide, by decide, by decide,
    (C4_double_upvote_restores (addUpvote newVoteLedger 2 0) 1 1 2
      (by decide) (by decide) (by decide)).1 1,
    (C4_double_upvote_restores (addUpvote newVoteLedger 2 0) 1 1 2
      (by decide) (by decide) (by decide)).2.2⟩

/-- Counterexample for C4. The claim as stated is false: take a content item
whose author is 0 on which user 1 (≠ 0) currently holds a downvote (reachable:
one `addDownvote(1)` from the creation state).  Calling `addUpvote(1)` twice
does not restore the state: the downvote is gone and the tally is one higher
(0 instead of −1). -/
theorem C4_counterexample :
    1 ∈ downUsers (addDownvote newVoteLedger 1 0) ∧
    1 ∉ downUsers (addUpvote (addUpvote (addDownvote newVoteLedger 1 0) 1 1) 1 2) ∧
    (addUpvote (addUpvote (addDownvote newVoteLedger 1 0) 1 1) 1 2).votes ≠
      (addDownvote newVoteLedger 1 0).votes := by
  decide

/-- Claim C5, amended. After `addUpvote(u)` then `addDownvote(u)`, `u` appears
in the downvoters and not in the upvoters — unconditionally.  The tally
clause needs the counterexample-forced restriction that `u` held no active
vote beforehand (and the tally was consistent): only then is the final tally
exactly one below the pre-upvote baseline.  (If `u` already held an upvote the
net change is −2, if a downvote, 0.) -/
theorem C5_upvote_then_downvote (c : VoteLedger) (u : UserId) (t1 t2 : Nat) :
    u ∈ downUsers (addDownvote (addUpvote c u t1) u t2) ∧
    u ∉ upUsers (addDownvote (addUpvote c u t1) u t2) ∧
    (TallyConsistent c → u ∉ upUsers c → u ∉ downUsers c →
      (addDownvote (addUpvote c u t1) u t2).votes = c.votes - 1) := by
  have hdown1 : u ∉ downUsers (addUpvote c u t1) := by
    intro h
    exact (downUsers_addUpvote h).2 rfl
  rw [addDownvote_eq_of_not_down t2 hdown1]
  refine ⟨?_, ?_, ?_⟩
  · simp [preSave, downUsers, List.map_append]
  · intro h
    have h' : u ∈ ((addUpvote c u t1).upvotes.filter
        (fun vote => vote.user != u)).map VoteEntry.user := h
    exact (mem_map_user_filter_ne.mp h').2 rfl
  · intro hI2 hup hdown
    rw [addUpvote_eq_of_fresh t1 hup hdown]
    have hfu : (c.upvotes ++ [({ user := u, createdAt := t1 } : VoteEntry)]).filter
        (fun vote => vote.user != u) = c.upvotes := by
      rw [List.filter_append, filter_user_ne_of_not_mem hup]
      simp
    unfold TallyConsistent at hI2
    simp only [preSave, hfu, List.length_append, List.length_cons, List.length_nil]
    push_cast
    omega

/-- Witness for C5: from the creation state, user 1 upvotes then downvotes. -/
theorem C5_upvote_then_downvote_witness :
    1 ∈ downUsers (addDownvote (addUpvote newVoteLedger 1 0) 1 1) ∧
    1 ∉ upUsers (addDownvote (addUpvote newVoteLedger 1 0) 1 1) ∧
    (addDownvote (addUpvote newVoteLedger 1 0) 1 1).votes = newVoteLedger.votes - 1 :=
  ⟨(C5_upvote_then_downvote newVoteLedger 1 0 1).1,
    (C5_upvote_then_downvote newVoteLedger 1 0 1).2.1,
    (C5_upvote_then_downvote newVoteLedger 1 0 1).2.2 (by decide) (by decide) (by decide)⟩

/-- Counterexample for C5. The claim as stated is false: if user 1 already
holds an upvote (reachable via one `addUpvote(1)` from creation, tally 1),
then `addUpvote(1)` toggles it off and `addDownvote(1)` adds a downvote — the
final tally is −1, two (not one) below the pre-upvote baseline of 1. -/
theorem C5_counterexample :
    (addDownvote (addUpvote (addUpvote newVoteLedger 1 0) 1 1) 1 2).votes ≠
      (addUpvote newVoteLedger 1 0).votes - 1 := by
  decide

/-- The fields of `questionSchema` (src/unnamed/part_000) read or written by
the embedded routes: the author, the vote ledger (`votes` / `upvotes` /
`downvotes`), the `isClosed` flag and the `acceptedAnswer` pointer.  The
remaining schema fields (title, content, tags, views, answers, bounty, …)
are never touched by the vote or accept routes and are omitted. -/
structure Question where
  author : UserId
  ledger : VoteLedger
  isClosed : Bool
  acceptedAnswer : Option AnswerId
  deriving DecidableEq, Repr

/-- Method `questionSchema.methods.addUpvote` applied to a question document. -/
def Question.addUpvote (q : Question) (userId : UserId) (now : Nat) : Question :=
  { q with ledger := OddoHacks.addUpvote q.ledger userId now }

/-- Method `questionSchema.methods.addDownvote` applied to a question document. -/
def Question.addDownvote (q : Question) (userId : UserId) (now : Nat) : Question :=
  { q with ledger := OddoHacks.addDownvote q.ledger userId now }

/-- Saving a question document runs the question schema's `pre('save')`
hook, which recomputes the cached vote counter. -/
def questionSave (q : Question) : Question :=
  { q with ledger := preSave q.ledger }

/-- The fields of `answerSchema` (src/server/models/Answer.js) read or
written by the embedded routes; `question` is the id of the answered
question.  Comments, edit history and deletion metadata are omitted. -/
structure Answer where
  author : UserId
  question : QuestionId
  ledger : VoteLedger
  isAccepted : Bool
  acceptedAt : Option Nat
  isDeleted : Bool
  deriving DecidableEq, Repr

/-- Method `answerSchema.methods.addUpvote` applied to an answer document. -/
def Answer.addUpvote (a : Answer) (userId : UserId) (now : Nat) : Answer :=
  { a with ledger := OddoHacks.addUpvote a.ledger userId now }

/-- Method `answerSchema.methods.addDownvote` applied to an answer document. -/
def Answer.addDownvote (a : Answer) (userId : UserId) (now : Nat) : Answer :=
  { a with ledger := OddoHacks.addDownvote a.ledger userId now }

/-- Method `answerSchema.methods.accept`: set `isAccepted`, stamp `acceptedAt` with
the current time, and save (running the answer schema's `pre('save')` hook,
which recomputes the cached vote counter). -/
def Answer.accept (a : Answer) (now : Nat) : Answer :=
  { a with isAccepted := true, acceptedAt := some now, ledger := preSave a.ledger }

/-- Modelled from the spec: the User model, whose `updateReputation` method
the vote and accept routes call, is not among the source files (only its call
sites are).  Per the spec, a ReputationLedger entry holds a running integer
score per user, "mutated only by applying signed deltas"; the whole ledger is
a map from user id to score, and `updateReputation` adds the delta to the
subject's score. -/
def updateReputation (reps : UserId → Int) (userId : UserId) (delta : Int) :
    UserId → Int :=
  fun u => if u = userId then reps u + delta else reps u

/-- The spec's error taxonomy as surfaced by the embedded routes (§7):
HTTP 404 → `NotFound`, the 400 "cannot vote on your own …" rejection →
`InvalidOperation`, HTTP 403 → `Forbidden`.  `PersistenceConflict` and
`PersistenceTimeout` arise only from the store collaborator, never from the
embedded logic, so they do not occur here. -/
inductive ApiError where
  | notFound
  | invalidOperation
  | forbidden
  deriving DecidableEq, Repr

/-- The request body's `type`, restricted to upvote/downvote by the route's
validator. -/
inductive VoteType where
  | upvote
  | downvote
  deriving DecidableEq, Repr

/-- The reputation delta the question vote route applies to the question's
author (+5 for an upvote, −2 for a downvote). -/
def questionVoteDelta : VoteType → Int
  | .upvote => 5
  | .downvote => -2

/-- The reputation delta the answer vote route applies to the answer's
author (+10 for an upvote, −2 for a downvote). -/
def answerVoteDelta : VoteType → Int
  | .upvote => 10
  | .downvote => -2

/-- Persisted state visible to `POST /api/questions/:id/vote`: the addressed
question document (`none` when missing) and the reputation scores. -/
structure QuestionVoteState where
  question : Option Question
  reps : UserId → Int

/-- Route `POST /api/questions/:id/vote` (src/server/routes/questions.js): load the
question (404 when missing), reject a self-vote with 400, otherwise apply
`addUpvote`/`addDownvote` per the request's `type` and unconditionally apply
the reputation delta; respond with the updated `votes`.  The notification
side call is an out-of-scope collaborator.  Note the route checks neither
`isClosed` nor any deleted state on the question.  Returns the state after
the request and the HTTP outcome. -/
def questionVoteRoute (s : QuestionVoteState) (voter : UserId) (ty : VoteType)
    (now : Nat) : QuestionVoteState × Except ApiError Int :=
  match s.question with
  | none => (s, .error .notFound)
  | some question =>
    if question.author = voter then
      (s, .error .invalidOperation)
    else
      match ty with
      | .upvote =>
        let question := question.addUpvote voter now
        let reps := updateReputation s.reps question.author 5
        ({ question := some question, reps := reps }, .ok question.ledger.votes)
      | .downvote =>
        let question := question.addDownvote voter now
        let reps := updateReputation s.reps question.author (-2)
        ({ question := some question, reps := reps }, .ok question.ledger.votes)

/-- Persisted state visible to `POST /api/answers/:id/vote`: the addressed
answer document (`none` when missing) and the reputation scores. -/
structure AnswerVoteState where
  answer : Option Answer
  reps : UserId → Int

/-- Route `POST /api/answers/:id/vote` (src/server/routes/answers.js): load the
answer (404 when missing or soft-deleted), reject a self-vote with 400,
otherwise apply `addUpvote`/`addDownvote` and unconditionally apply the
reputation delta; respond with the updated `votes`. -/
def answerVoteRoute (s : AnswerVoteState) (voter : UserId) (ty : VoteType)
    (now : Nat) : AnswerVoteState × Except ApiError Int :=
  match s.answer with
  | none => (s, .error .notFound)
  | some answer =>
    if answer.isDeleted then
      (s, .error .notFound)
    else if answer.author = voter then
      (s, .error .invalidOperation)
    else
      match ty with
      | .upvote =>
        let answer := answer.addUpvote voter now
        let reps := updateReputation s.reps answer.author 10
        ({ answer := some answer, reps := reps }, .ok answer.ledger.votes)
      | .downvote =>
        let answer := answer.addDownvote voter now
        let reps := updateReputation s.reps answer.author (-2)
        ({ answer := some answer, reps := reps }, .ok answer.ledger.votes)

/-- Claim C3. For every accepted vote request (content present and, for
answers, not soft-deleted; voter distinct from the author), each route
applies exactly one reputation delta to the content author per the table —
+5 / −2 for questions, +10 / −2 for answers — and succeeds, unconditionally
of whether the ledger transition was a fresh vote, a direction switch, or a
toggle-off (the routes never inspect the prior ledger state). -/
theorem C3_reputation_delta_applied (sq : QuestionVoteState)
    (sa : AnswerVoteState) (q : Question) (a : Answer) (voter : UserId)
    (ty : VoteType) (now : Nat)
    (hq : sq.question = some q) (hqv : q.author ≠ voter)
    (ha : sa.answer = some a) (had : a.isDeleted = false)
    (hav : a.author ≠ voter) :
    ((questionVoteRoute sq voter ty now).1.reps =
        updateReputation sq.reps q.author (questionVoteDelta ty) ∧
      ∃ n, (questionVoteRoute sq voter ty now).2 = .ok n) ∧
    ((answerVoteRoute sa voter ty now).1.reps =
        updateReputation sa.reps a.author (answerVoteDelta ty) ∧
      ∃ n, (answerVoteRoute sa voter ty now).2 = .ok n) := by
  have hqv' : ¬(q.author = voter) := hqv
  have hav' : ¬(a.author = voter) := hav
  cases ty <;>
    refine ⟨⟨?_, ?_⟩, ⟨?_, ?_⟩⟩ <;>
      simp [questionVoteRoute, answerVoteRoute, hq, ha, had, hqv', hav',
        updateReputation, questionVoteDelta, answerVoteDelta,
        Question.addUpvote, Question.addDownvote, Answer.addUpvote,
        Answer.addDownvote]

/-- Fixed sample data used by the witnesses below. -/
def sampleQuestion : Question :=
  { author := 0, ledger := newVoteLedger, isClosed := false,
    acceptedAnswer := none }

/-- Fixed sample data used by the witnesses below. -/
def sampleAnswer : Answer :=
  { author := 0, question := 0, ledger := newVoteLedger, isAccepted := false,
    acceptedAt := none, isDeleted := false }

/-- Everybody starts at reputation 0 (the spec's ReputationLedger
lifecycle). -/
def zeroReps : UserId → Int := fun _ => 0

/-- Witness for C3: user 1 upvotes a question and an answer authored by
user 0. -/
theorem C3_reputation_delta_applied_witness :
    sampleQuestion.author ≠ 1 ∧ sampleAnswer.isDeleted = false ∧
    sampleAnswer.author ≠ 1 ∧
    (questionVoteRoute ⟨some sampleQuestion, zeroReps⟩ 1 .upvote 0).1.reps =
      updateReputation zeroReps sampleQuestion.author
        (questionVoteDelta .upvote) ∧
    (answerVoteRoute ⟨some sampleAnswer, zeroReps⟩ 1 .upvote 0).1.reps =
      updateReputation zeroReps sampleAnswer.author
        (answerVoteDelta .upvote) :=
  ⟨by decide, by decide, by decide,
    (C3_reputation_delta_applied ⟨some sampleQuestion, zeroReps⟩
      ⟨some sampleAnswer, zeroReps⟩ sampleQuestion sampleAnswer 1 .upvote 0
      rfl (by decide) rfl (by decide) (by decide)).1.1,
    (C3_reputation_delta_applied ⟨some sampleQuestion, zeroReps⟩
      ⟨some sampleAnswer, zeroReps⟩ sampleQuestion sampleAnswer 1 .upvote 0
      rfl (by decide) rfl (by decide) (by decide)).2.1⟩

/-- Claim C6. A vote request whose voter equals the content's author fails
with `InvalidOperation` (the routes' 400 "cannot vote on your own …"
rejection) and returns the state untouched: no vote-ledger, tally, or
reputation mutation happens on the self-vote path.  For answers the
soft-deleted check runs first, so the claim's "content item" is a live
(non-deleted) one. -/
theorem C6_self_vote_rejected (sq : QuestionVoteState) (sa : AnswerVoteState)
    (q : Question) (a : Answer) (ty : VoteType) (now : Nat)
    (hq : sq.question = some q) (ha : sa.answer = some a)
    (had : a.isDeleted = false) :
    questionVoteRoute sq q.author ty now = (sq, .error .invalidOperation) ∧
    answerVoteRoute sa a.author ty now = (sa, .error .invalidOperation) := by
  constructor
  · simp [questionVoteRoute, hq]
  · simp [answerVoteRoute, ha, had]

/-- Witness for C6: the authors of the sample question and answer vote on
their own content. -/
theorem C6_self_vote_rejected_witness :
    sampleAnswer.isDeleted = false ∧
    questionVoteRoute ⟨some sampleQuestion, zeroReps⟩ sampleQuestion.author
        .upvote 0 =
      (⟨some sampleQuestion, zeroReps⟩, .error .invalidOperation) ∧
    answerVoteRoute ⟨some sampleAnswer, zeroReps⟩ sampleAnswer.author
        .upvote 0 =
      (⟨some sampleAnswer, zeroReps⟩, .error .invalidOperation) :=
  ⟨by decide,
    (C6_self_vote_rejected ⟨some sampleQuestion, zeroReps⟩
      ⟨some sampleAnswer, zeroReps⟩ sampleQuestion sampleAnswer .upvote 0
      rfl rfl (by decide)).1,
    (C6_self_vote_rejected ⟨some sampleQuestion, zeroReps⟩
      ⟨some sampleAnswer, zeroReps⟩ sampleQuestion sampleAnswer .upvote 0
      rfl rfl (by decide)).2⟩

/-- A closed question (user 0's), used for C9. -/
def closedQuestion : Question :=
  { author := 0, ledger := newVoteLedger, isClosed := true,
    acceptedAnswer := none }

/-- Counterexample for C9. The claim is false on the code: the question vote
route performs no `isClosed` check, so a vote by user 1 on user 0's closed
question does not fail with `InvalidOperation` — it succeeds (responding
with the new tally 1) and mutates the ledger (user 1 is recorded as an
upvoter). -/
theorem C9_counterexample :
    closedQuestion.isClosed = true ∧
    (questionVoteRoute ⟨some closedQuestion, zeroReps⟩ 1 .upvote 0).2 =
      .ok 1 ∧
    (questionVoteRoute ⟨some closedQuestion, zeroReps⟩ 1 .upvote 0).1.question
      ≠ some closedQuestion := by
  refine ⟨rfl, rfl, ?_⟩
  decide

/-- Claim C9, amended. The question vote route ignores the `isClosed` flag: a
vote request on a closed question from a non-author is accepted and
processed exactly like one on an open question — the ledger is toggled, the
tally recomputed and returned, and the reputation delta applied.  (Answers
have no closed state; their route only rejects missing/soft-deleted answers
and self-votes.) -/
theorem C9_closed_question_vote_processed (s : QuestionVoteState)
    (q : Question) (voter : UserId) (ty : VoteType) (now : Nat)
    (hq : s.question = some q) (hclosed : q.isClosed = true)
    (hv : q.author ≠ voter) :
    (questionVoteRoute s voter ty now).1.question =
      some (match ty with
            | .upvote => q.addUpvote voter now
            | .downvote => q.addDownvote voter now) ∧
    (questionVoteRoute s voter ty now).1.reps =
      updateReputation s.reps q.author (questionVoteDelta ty) ∧
    (questionVoteRoute s voter ty now).2 =
      .ok (match ty with
           | .upvote => (q.addUpvote voter now).ledger.votes
           | .downvote => (q.addDownvote voter now).ledger.votes) := by
  have hv' : ¬(q.author = voter) := hv
  cases ty <;>
    refine ⟨?_, ?_, ?_⟩ <;>
      simp [questionVoteRoute, hq, hv', questionVoteDelta,
        Question.addUpvote, Question.addDownvote]

/-- Witness for C9 (amended): user 1 upvotes user 0's closed question. -/
theorem C9_closed_question_vote_processed_witness :
    closedQuestion.isClosed = true ∧ closedQuestion.author ≠ 1 ∧
    (questionVoteRoute ⟨some closedQuestion, zeroReps⟩ 1 .upvote 0).1.question
      = some (closedQuestion.addUpvote 1 0) :=
  ⟨by decide, by decide,
    (C9_closed_question_vote_processed ⟨some closedQuestion, zeroReps⟩
      closedQuestion 1 .upvote 0 rfl (by decide) (by decide)).1⟩

/-- Persisted state visible to `POST /api/answers/:id/accept`: the answer
and question collections (id → document) and the reputation scores. -/
structure AcceptState where
  answers : AnswerId → Option Answer
  questions : QuestionId → Option Question
  reps : UserId → Int

/-- Store update `Answer.findByIdAndUpdate(id, fields)`: apply an update to the stored
document with the given id, if any. -/
def updateStoredAnswer (db : AnswerId → Option Answer) (aid : AnswerId)
    (f : Answer → Answer) : AnswerId → Option Answer :=
  fun n => if n = aid then (db n).map f else db n

/-- Saving a loaded answer document writes it back whole. -/
def writeAnswer (db : AnswerId → Option Answer) (aid : AnswerId) (a : Answer) :
    AnswerId → Option Answer :=
  fun n => if n = aid then some a else db n

/-- Saving a loaded question document writes it back whole. -/
def writeQuestion (db : QuestionId → Option Question) (qid : QuestionId)
    (q : Question) : QuestionId → Option Question :=
  fun n => if n = qid then some q else db n

/-- The four store writes of the accept route's success path, in source
order, as the list of persisted states after each write:
1. if the question already has an accepted answer, unaccept it
   (`findByIdAndUpdate` clearing `isAccepted` and `acceptedAt`; when there is
   no accepted answer no write happens and the state is unchanged);
2. `answer.accept()` — save the loaded answer document with `isAccepted` set
   and `acceptedAt` stamped (the loaded document, not the store's current
   one: when the accepted answer is the answer itself, write 1 is simply
   overwritten);
3. save the question with `acceptedAnswer` pointed at the answer;
4. apply the +15 reputation delta to the answer's author. -/
def acceptWrites (s : AcceptState) (answer : Answer) (answerId : AnswerId)
    (question : Question) (now : Nat) : List AcceptState :=
  let s1 :=
    match question.acceptedAnswer with
    | some prev =>
      { s with answers := (updateStoredAnswer s.answers prev
          (fun a => { a with isAccepted := false, acceptedAt := none })) }
    | none => s
  let s2 := { s1 with answers := writeAnswer s1.answers answerId (answer.accept now) }
  let s3 := { s2 with questions := (writeQuestion s2.questions answer.question
      (questionSave { question with acceptedAnswer := some answerId })) }
  let s4 := { s3 with reps := updateReputation s3.reps answer.author 15 }
  [s1, s2, s3, s4]

/-- Route `POST /api/answers/:id/accept` (src/server/routes/answers.js): load the
answer (404 when missing or soft-deleted), load its question (404 when
missing), reject a non-author requester with 403, then perform the four
writes of `acceptWrites` and respond with success.  Returns the trace of
persisted states after each write (empty when the route rejects before
writing anything) and the HTTP outcome.  The notification side call is an
out-of-scope collaborator. -/
def acceptRoute (s : AcceptState) (answerId : AnswerId) (requester : UserId)
    (now : Nat) : List AcceptState × Except ApiError Unit :=
  match s.answers answerId with
  | none => ([], .error .notFound)
  | some answer =>
    if answer.isDeleted then
      ([], .error .notFound)
    else
      match s.questions answer.question with
      | none => ([], .error .notFound)
      | some question =>
        if question.author ≠ requester then
          ([], .error .forbidden)
        else
          (acceptWrites s answer answerId question now, .ok ())

/-- The persisted state after a request, given the pre-request state and the
request's write trace. -/
def finalState (s : AcceptState) (trace : List AcceptState) : AcceptState :=
  trace.getLastD s

/-- At most one stored answer is marked accepted. -/
def AtMostOneAccepted (db : AnswerId → Option Answer) : Prop :=
  ∀ i j a b, db i = some a → db j = some b →
    a.isAccepted = true → b.isAccepted = true → i = j

/-- Claim C8. An accept request whose requester is not the question's author
fails with `Forbidden` (the route's 403) before any store write: the write
trace is empty, so no answer's accepted flag, no question pointer, and no
reputation score changes. -/
theorem C8_accept_forbidden (s : AcceptState) (answerId : AnswerId)
    (requester : UserId) (now : Nat) (answer : Answer) (question : Question)
    (ha : s.answers answerId = some answer) (hdel : answer.isDeleted = false)
    (hq : s.questions answer.question = some question)
    (hne : question.author ≠ requester) :
    acceptRoute s answerId requester now = ([], .error .forbidden) := by
  simp [acceptRoute, ha, hdel, hq, hne]

/-- An already-accepted answer (answer 1 below) by user 8 on question 0. -/
def acceptedAnswerA : Answer :=
  { author := 8, question := 0, ledger := newVoteLedger, isAccepted := true,
    acceptedAt := some 5, isDeleted := false }

/-- A not-yet-accepted answer (answer 2 below) by user 9 on question 0. -/
def candidateAnswerB : Answer :=
  { author := 9, question := 0, ledger := newVoteLedger, isAccepted := false,
    acceptedAt := none, isDeleted := false }

/-- Question 0, authored by user 7, currently accepting answer 1. -/
def acceptQuestion : Question :=
  { author := 7, ledger := newVoteLedger, isClosed := false,
    acceptedAnswer := some 1 }

/-- A store with question 0 (accepting answer 1) and answers 1 and 2. -/
def sampleAcceptState : AcceptState :=
  { answers := fun n =>
      if n = 1 then some acceptedAnswerA
      else if n = 2 then some candidateAnswerB
      else none,
    questions := fun n => if n = 0 then some acceptQuestion else none,
    reps := zeroReps }

/-- Witness for C8: user 9 (not the question author 7) tries to accept
answer 2. -/
theorem C8_accept_forbidden_witness :
    sampleAcceptState.answers 2 = some candidateAnswerB ∧
    candidateAnswerB.isDeleted = false ∧
    sampleAcceptState.questions candidateAnswerB.question =
      some acceptQuestion ∧
    acceptQuestion.author ≠ 9 ∧
    acceptRoute sampleAcceptState 2 9 0 = ([], .error .forbidden) :=
  ⟨rfl, rfl, rfl, by decide,
    C8_accept_forbidden sampleAcceptState 2 9 0 candidateAnswerB
      acceptQuestion rfl rfl rfl (by decide)⟩

/-- Claim C10. When the question's accepted-answer pointer already equals the
answer being accepted, a repeated accept request by the question's author
succeeds (it is not rejected as redundant): the answer ends (stays) accepted,
the question keeps pointing at it, and a further +15 is applied to the
answer author's reputation — so each repetition adds another +15; acceptance
is not idempotent in its reputation effect. -/
theorem C10_repeated_accept (s : AcceptState) (bId : AnswerId) (B : Answer)
    (Q : Question) (requester : UserId) (now : Nat)
    (hB : s.answers bId = some B) (hdel : B.isDeleted = false)
    (hQ : s.questions B.question = some Q) (hauth : Q.author = requester)
    (hptr : Q.acceptedAnswer = some bId) :
    (acceptRoute s bId requester now).2 = .ok () ∧
    (finalState s (acceptRoute s bId requester now).1).answers bId =
      some (B.accept now) ∧
    (B.accept now).isAccepted = true ∧
    (finalState s (acceptRoute s bId requester now).1).questions B.question =
      some (questionSave { Q with acceptedAnswer := some bId }) ∧
    (questionSave { Q with acceptedAnswer := some bId }).acceptedAnswer =
      some bId ∧
    (finalState s (acceptRoute s bId requester now).1).reps B.author =
      s.reps B.author + 15 := by
  have hred : acceptRoute s bId requester now =
      (acceptWrites s B bId Q now, .ok ()) := by
    simp [acceptRoute, hB, hdel, hQ, hauth]
  refine ⟨by rw [hred], ?_, rfl, ?_, rfl, ?_⟩
  · rw [hred]
    simp [finalState, acceptWrites, hptr, writeAnswer]
  · rw [hred]
    simp [finalState, acceptWrites, hptr, writeQuestion]
  · rw [hred]
    simp [finalState, acceptWrites, hptr, updateReputation]

/-- Answer 2 of the repeat scenario: already accepted, by user 9. -/
def alreadyAcceptedB : Answer :=
  { author := 9, question := 0, ledger := newVoteLedger, isAccepted := true,
    acceptedAt := some 5, isDeleted := false }

/-- Question 0 of the repeat scenario: already pointing at answer 2. -/
def repeatQuestion : Question :=
  { author := 7, ledger := newVoteLedger, isClosed := false,
    acceptedAnswer := some 2 }

/-- Store for the repeat scenario. -/
def repeatAcceptState : AcceptState :=
  { answers := fun n => if n = 2 then some alreadyAcceptedB else none,
    questions := fun n => if n = 0 then some repeatQuestion else none,
    reps := zeroReps }

/-- Witness for C10: author 7 re-accepts the already-accepted answer 2;
user 9's reputation gains another +15. -/
theorem C10_repeated_accept_witness :
    repeatAcceptState.answers 2 = some alreadyAcceptedB ∧
    alreadyAcceptedB.isDeleted = false ∧
    repeatAcceptState.questions alreadyAcceptedB.question =
      some repeatQuestion ∧
    repeatQuestion.author = 7 ∧
    repeatQuestion.acceptedAnswer = some 2 ∧
    (acceptRoute repeatAcceptState 2 7 9).2 = .ok () ∧
    (finalState repeatAcceptState (acceptRoute repeatAcceptState 2 7 9).1).reps
        alreadyAcceptedB.author =
      repeatAcceptState.reps alreadyAcceptedB.author + 15 :=
  ⟨rfl, rfl, rfl, rfl, rfl,
    (C10_repeated_accept repeatAcceptState 2 alreadyAcceptedB repeatQuestion
      7 9 rfl rfl rfl rfl rfl).1,
    (C10_repeated_accept repeatAcceptState 2 alreadyAcceptedB repeatQuestion
      7 9 rfl rfl rfl rfl rfl).2.2.2.2.2⟩

/-- Claim C7, amended. Accepting answer B by the question's author, when the
question previously accepted a different answer A (and at most one stored
answer was accepted), succeeds and ends with A unaccepted with a cleared
acceptance timestamp, B accepted, and the question's pointer equal to B's
id; and at no persisted intermediate state are two answers simultaneously
marked accepted (A is unaccepted by the first write, before B's flag is
set).  The claim's remaining clause — that the question at no point points
at an answer not marked accepted — is dropped: it fails at the persisted
state between the write unaccepting A and the write updating the pointer
(see the counterexample). -/
theorem C7_accept_switch (s : AcceptState) (aId bId : AnswerId) (A B : Answer)
    (Q : Question) (requester : UserId) (now : Nat)
    (hB : s.answers bId = some B) (hdel : B.isDeleted = false)
    (hQ : s.questions B.question = some Q) (hauth : Q.author = requester)
    (hptr : Q.acceptedAnswer = some aId) (hne : aId ≠ bId)
    (hA : s.answers aId = some A) (hAacc : A.isAccepted = true)
    (hone : AtMostOneAccepted s.answers) :
    (acceptRoute s bId requester now).2 = .ok () ∧
    (finalState s (acceptRoute s bId requester now).1).answers aId =
      some { A with isAccepted := false, acceptedAt := none } ∧
    (finalState s (acceptRoute s bId requester now).1).answers bId =
      some (B.accept now) ∧
    (B.accept now).isAccepted = true ∧
    (finalState s (acceptRoute s bId requester now).1).questions B.question =
      some (questionSave { Q with acceptedAnswer := some bId }) ∧
    (questionSave { Q with acceptedAnswer := some bId }).acceptedAnswer =
      some bId ∧
    ∀ st ∈ (acceptRoute s bId requester now).1,
      AtMostOneAccepted st.answers := by
  have hred : acceptRoute s bId requester now =
      (acceptWrites s B bId Q now, .ok ()) := by
    simp [acceptRoute, hB, hdel, hQ, hauth]
  have h1 : ∀ i a, updateStoredAnswer s.answers aId
      (fun a => { a with isAccepted := false, acceptedAt := none }) i =
        some a → a.isAccepted = false := by
    intro i a hi
    by_cases hia : i = aId
    · subst hia
      have hi' : some ({ A with isAccepted := false, acceptedAt := none } : Answer) =
          some a := by
        rw [← hi]
        simp [updateStoredAnswer, hA]
      injection hi' with h
      rw [← h]
    · simp only [updateStoredAnswer, if_neg hia] at hi
      cases hbool : a.isAccepted with
      | false => rfl
      | true => exact absurd (hone i aId a A hi hA hbool hAacc) hia
  have hone1 : AtMostOneAccepted (updateStoredAnswer s.answers aId
      (fun a => { a with isAccepted := false, acceptedAt := none })) := by
    intro i j a b hi _ hai _
    exact absurd (h1 i a hi) (by simp [hai])
  have hone2 : AtMostOneAccepted (writeAnswer (updateStoredAnswer s.answers aId
      (fun a => { a with isAccepted := false, acceptedAt := none })) bId
      (B.accept now)) := by
    intro i j a b hi hj hai haj
    by_cases hib : i = bId <;> by_cases hjb : j = bId
    · rw [hib, hjb]
    · rw [writeAnswer, if_neg hjb] at hj
      exact absurd (h1 j b hj) (by simp [haj])
    · rw [writeAnswer, if_neg hib] at hi
      exact absurd (h1 i a hi) (by simp [hai])
    · rw [writeAnswer, if_neg hib] at hi
      exact absurd (h1 i a hi) (by simp [hai])
  refine ⟨by rw [hred], ?_, ?_, rfl, ?_, rfl, ?_⟩
  · rw [hred]
    simp [finalState, acceptWrites, hptr, writeAnswer, hne,
      updateStoredAnswer, hA]
  · rw [hred]
    simp [finalState, acceptWrites, hptr, writeAnswer]
  · rw [hred]
    simp [finalState, acceptWrites, hptr, writeQuestion]
  · intro st hst
    rw [hred] at hst
    simp only [acceptWrites, hptr, List.mem_cons, List.not_mem_nil,
      or_false] at hst
    rcases hst with rfl | rfl | rfl | rfl
    · exact hone1
    · exact hone2
    · exact hone2
    · exact hone2

lemma accepted_id_of_sample {k : AnswerId} {c : Answer}
    (hk : sampleAcceptState.answers k = some c) (hc : c.isAccepted = true) :
    k = 1 := by
  by_cases hk1 : k = 1
  · exact hk1
  · exfalso
    by_cases hk2 : k = 2
    · subst hk2
      rw [show sampleAcceptState.answers 2 = some candidateAnswerB from rfl] at hk
      injection hk with hk
      rw [← hk] at hc
      exact absurd hc (by decide)
    · rw [show sampleAcceptState.answers k =
          (if k = 1 then some acceptedAnswerA
           else if k = 2 then some candidateAnswerB else none) from rfl,
        if_neg hk1, if_neg hk2] at hk
      exact absurd hk (by simp)

lemma sampleAcceptState_atMostOne : AtMostOneAccepted sampleAcceptState.answers :=
  fun _ _ _ _ hi hj hai haj =>
    (accepted_id_of_sample hi hai).trans (accepted_id_of_sample hj haj).symm

/-- Witness for C7 (amended): author 7 switches the accepted answer of
question 0 from answer 1 (user 8's) to answer 2 (user 9's). -/
theorem C7_accept_switch_witness :
    sampleAcceptState.answers 2 = some candidateAnswerB ∧
    candidateAnswerB.isDeleted = false ∧
    sampleAcceptState.questions candidateAnswerB.question =
      some acceptQuestion ∧
    acceptQuestion.author = 7 ∧
    acceptQuestion.acceptedAnswer = some 1 ∧
    (1 : AnswerId) ≠ 2 ∧
    sampleAcceptState.answers 1 = some acceptedAnswerA ∧
    acceptedAnswerA.isAccepted = true ∧
    (acceptRoute sampleAcceptState 2 7 9).2 = .ok () ∧
    (finalState sampleAcceptState (acceptRoute sampleAcceptState 2 7 9).1).answers 1 =
      some { acceptedAnswerA with isAccepted := false, acceptedAt := none } ∧
    (finalState sampleAcceptState (acceptRoute sampleAcceptState 2 7 9).1).answers 2 =
      some (candidateAnswerB.accept 9) :=
  ⟨rfl, rfl, rfl, rfl, rfl, by decide, rfl, rfl,
    (C7_accept_switch sampleAcceptState 1 2 acceptedAnswerA candidateAnswerB
      acceptQuestion 7 9 rfl rfl rfl rfl rfl (by decide) rfl rfl
      sampleAcceptState_atMostOne).1,
    (C7_accept_switch sampleAcceptState 1 2 acceptedAnswerA candidateAnswerB
      acceptQuestion 7 9 rfl rfl rfl rfl rfl (by decide) rfl rfl
      sampleAcceptState_atMostOne).2.1,
    (C7_accept_switch sampleAcceptState 1 2 acceptedAnswerA candidateAnswerB
      acceptQuestion 7 9 rfl rfl rfl rfl rfl (by decide) rfl rfl
      sampleAcceptState_atMostOne).2.2.1⟩

/-- Counterexample for C7. The claim's "the question never points at an
answer not marked accepted" clause is false on the code: in the switch
scenario above, the state persisted by the route's first write (unaccepting
answer 1) still has question 0 pointing at answer 1, which is no longer
marked accepted — the pointer is only updated two writes later.  The
request as a whole succeeds. -/
theorem C7_counterexample :
    (acceptRoute sampleAcceptState 2 7 9).2 = .ok () ∧
    ∃ st, (acceptRoute sampleAcceptState 2 7 9).1.head? = some st ∧
      (st.questions 0).map Question.acceptedAnswer = some (some 1) ∧
      (st.answers 1).map Answer.isAccepted = some false := by
  refine ⟨rfl, ⟨_, rfl, ?_, ?_⟩⟩ <;> rfl

end OddoHacks
